import Mathlib

/-!
Verification of the Worker Dispatch Supervisor pattern of the repository:
the supervisor `processOrder` (which forks a child, sends it
`{orders: orderList}`, and logs the child's reply and exit) and the worker's
`process.on("message")` handler (which maps each order to a processed record,
sends `{status: "Completed", processedOrder}`, and exits).

The JavaScript values crossing the message channel are modelled by `JSValue`;
the handler's effects (console.log, process.send, process.exit) are modelled
as an explicit action trace, with an uncaught exception terminating the
process with exit status 1 and no further actions, as the Node.js runtime
does.
-/

/-- A JSON-like JavaScript value, as sent over the fork IPC channel. -/
inductive JSValue where
  | null : JSValue
  | undefined : JSValue
  | bool (b : Bool) : JSValue
  | num (n : Int) : JSValue
  | str (s : String) : JSValue
  | arr (elems : List JSValue) : JSValue
  | obj (fields : List (String × JSValue)) : JSValue

/-- A JavaScript runtime exception (the handler can only raise TypeError:
reading a property of null/undefined, or calling `.map` on a non-array). -/
inductive JSError where
  | typeError : JSError
deriving DecidableEq

/-- Property read `v.key` on values where it cannot throw: objects yield the
field's value (or `undefined` when absent, first binding wins as in an object
literal); other non-nullish values have no own properties, so `undefined`. -/
def getField (v : JSValue) (key : String) : JSValue :=
  match v with
  | .obj fields => (fields.lookup key).getD .undefined
  | _ => .undefined

/-- Property read `v.key` with JavaScript's throwing behaviour: reading a
property of `null` or `undefined` raises a TypeError. -/
def getFieldE (v : JSValue) (key : String) : Except JSError JSValue :=
  match v with
  | .null => .error .typeError
  | .undefined => .error .typeError
  | v => .ok (getField v key)

/-- Whether `v` has an own property named `key`. -/
def hasField (v : JSValue) (key : String) : Bool :=
  match v with
  | .obj fields => fields.any (fun p => p.1 == key)
  | _ => false

/-- `true` unless the value is `null` or `undefined` (property reads on it
would throw). -/
def notNullish : JSValue → Bool
  | .null => false
  | .undefined => false
  | _ => true

/-- `true` exactly on array values (the only values whose `.map` call does
not throw). -/
def isArray : JSValue → Bool
  | .arr _ => true
  | _ => false

/-- The callback of `data.orders.map` in the worker
(src/unnamed/part_007, lines 3-9):
`(order) => ({orderId: order.orderId, status: "processed",
timestamp: new Date().toString()})`.
Reading `order.orderId` throws when `order` is nullish; `now` is the string
the clock `new Date().toString()` produced. -/
def processOneOrder (now : String) (order : JSValue) : Except JSError JSValue :=
  match getFieldE order "orderId" with
  | .error e => .error e
  | .ok oid =>
      .ok (.obj [("orderId", oid), ("status", .str "processed"),
                 ("timestamp", .str now)])

/-- `Array.prototype.map` applied left to right, aborting at the first
element whose callback throws. -/
def mapOrders (now : String) : List JSValue → Except JSError (List JSValue)
  | [] => .ok []
  | o :: rest =>
      match processOneOrder now o with
      | .error e => .error e
      | .ok r =>
          match mapOrders now rest with
          | .error e => .error e
          | .ok rs => .ok (r :: rs)

/-- `v.map(callback)`: throws a TypeError unless `v` is an array. -/
def runMap (now : String) (v : JSValue) : Except JSError (List JSValue) :=
  match v with
  | .arr xs => mapOrders now xs
  | _ => .error .typeError

/-- An observable effect of the worker process: a console.log of a value, a
`process.send` of a message, or process termination with an exit status. -/
inductive WorkerAction where
  | log (v : JSValue) : WorkerAction
  | send (m : JSValue) : WorkerAction
  | exitA (code : Nat) : WorkerAction

/-- The reply object the worker builds for `process.send`
(src/unnamed/part_007, lines 10-13): `{status: "Completed", processedOrder}`. -/
def replyMessage (processedOrder : List JSValue) : JSValue :=
  .obj [("status", .str "Completed"), ("processedOrder", .arr processedOrder)]

/-- The worker's `process.on("message")` handler (src/unnamed/part_007):
logs `data.orders`, maps it to `processedOrder`, sends the reply, then calls
`process.exit()` (status 0). An uncaught exception at any point terminates
the Node.js process with status 1 and no further actions. -/
def onMessage (now : String) (data : JSValue) : List WorkerAction :=
  match getFieldE data "orders" with
  | .error _ => [.exitA 1]
  | .ok ordersVal =>
      match runMap now ordersVal with
      | .error _ => [.log ordersVal, .exitA 1]
      | .ok processedOrder =>
          [.log ordersVal, .send (replyMessage processedOrder), .exitA 0]

/-- The messages a worker trace passed to `process.send`. -/
def sentMessages (tr : List WorkerAction) : List JSValue :=
  tr.filterMap fun a =>
    match a with
    | .send m => some m
    | _ => none

/-- The exit statuses of a worker trace (a trace of one process run has
exactly one). -/
def exitCodes (tr : List WorkerAction) : List Nat :=
  tr.filterMap fun a =>
    match a with
    | .exitA c => some c
    | _ => none

/-- An invocation of one of the parent's callbacks
(src/unnamed/part_006, lines 6-11): the `child.on("message")` callback with
the received message, or the `child.on("exit")` callback with the exit code. -/
inductive SupEvent where
  | messageCallback (m : JSValue) : SupEvent
  | exitCallback (code : Nat) : SupEvent

/-- The parent-side callback invocations produced by one child run: the
message callback fires once per message the child sent, then the exit
callback fires once with the child's exit status. -/
def dispatchEvents (tr : List WorkerAction) : List SupEvent :=
  (sentMessages tr).map SupEvent.messageCallback
    ++ (exitCodes tr).map SupEvent.exitCallback

/-- One full run of `processOrder` (src/unnamed/part_006): the number of
workers forked, the forked worker's action trace, and the parent callback
invocations. -/
structure DispatchRun where
  forkedWorkers : Nat
  workerTrace : List WorkerAction
  parentEvents : List SupEvent

/-- `processOrder(orderList)` (src/unnamed/part_006, lines 3-12): forks
exactly one child running the part_007 handler, sends it
`{orders: orderList}`, and registers the message and exit callbacks. -/
def processOrder (now : String) (orderList : List JSValue) : DispatchRun :=
  let tr := onMessage now (.obj [("orders", .arr orderList)])
  { forkedWorkers := 1, workerTrace := tr, parentEvents := dispatchEvents tr }

/-- The order literal used by the demo batch of src/unnamed/part_006:
`{orderId, customer, amount}`. -/
def mkOrder (orderId : Int) (customer : String) (amount : Int) : JSValue :=
  .obj [("orderId", .num orderId), ("customer", .str customer),
        ("amount", .num amount)]

/-- The demo batch of src/unnamed/part_006, lines 13-17. -/
def demoOrders : List JSValue :=
  [mkOrder 101 "Alice" 200, mkOrder 102 "Bob" 350, mkOrder 103 "Charlie" 500]

/-- The record the worker's map callback produces for a non-nullish order
(the value `processOneOrder` returns when it does not throw). -/
def resultRecord (now : String) (order : JSValue) : JSValue :=
  .obj [("orderId", getField order "orderId"), ("status", .str "processed"),
        ("timestamp", .str now)]

/-- The record with its `timestamp` field removed (to compare two runs of
the clock-dependent worker). -/
def removeField (v : JSValue) (key : String) : JSValue :=
  match v with
  | .obj fields => .obj (fields.filter (fun p => p.1 != key))
  | v => v

theorem getFieldE_ok {v : JSValue} {key : String} {w : JSValue}
    (h : getFieldE v key = .ok w) : w = getField v key := by
  cases v <;> simp [getFieldE] at h <;> exact h.symm

theorem processOneOrder_ok (now : String) (o : JSValue)
    (h : notNullish o = true) :
    processOneOrder now o = .ok (resultRecord now o) := by
  cases o <;> simp_all [processOneOrder, getFieldE, notNullish, resultRecord]

theorem processOneOrder_nullish (now : String) (o : JSValue)
    (h : notNullish o = false) :
    processOneOrder now o = .error .typeError := by
  cases o <;> simp_all [processOneOrder, getFieldE, notNullish]

theorem mapOrders_ok (now : String) (os : List JSValue)
    (h : ∀ o ∈ os, notNullish o = true) :
    mapOrders now os = .ok (os.map (resultRecord now)) := by
  induction os with
  | nil => rfl
  | cons o rest ih =>
      have ho : notNullish o = true := h o (List.mem_cons_self o rest)
      have hrest : ∀ x ∈ rest, notNullish x = true :=
        fun x hx => h x (List.mem_cons_of_mem o hx)
      simp [mapOrders, processOneOrder_ok now o ho, ih hrest]

theorem mapOrders_error (now : String) (os : List JSValue)
    (h : ¬ ∀ o ∈ os, notNullish o = true) :
    mapOrders now os = .error .typeError := by
  induction os with
  | nil => exact absurd (by simp) h
  | cons o rest ih =>
      by_cases ho : notNullish o = true
      · have hrest : ¬ ∀ x ∈ rest, notNullish x = true := by
          intro hall
          exact h (by
            intro x hx
            rcases List.mem_cons.mp hx with hx | hx
            · exact hx ▸ ho
            · exact hall x hx)
        simp [mapOrders, processOneOrder_ok now o ho, ih hrest]
      · have ho' : notNullish o = false := by
          cases hb : notNullish o
          · rfl
          · exact absurd hb ho
        simp [mapOrders, processOneOrder_nullish now o ho']

theorem getFieldE_batch (orderList : List JSValue) :
    getFieldE (.obj [("orders", .arr orderList)]) "orders"
      = .ok (.arr orderList) := rfl

/-- On a well-formed batch (every order non-nullish) the worker's handler
logs, sends the reply built from the mapped records, and exits 0. -/
theorem onMessage_batch_ok (now : String) (orderList : List JSValue)
    (h : ∀ o ∈ orderList, notNullish o = true) :
    onMessage now (.obj [("orders", .arr orderList)])
      = [.log (.arr orderList),
         .send (replyMessage (orderList.map (resultRecord now))),
         .exitA 0] := by
  simp [onMessage, getFieldE_batch, runMap, mapOrders_ok now orderList h]

/-- On a batch containing a nullish element the map callback throws, so the
handler's process dies with status 1 after the log, sending nothing. -/
theorem onMessage_batch_err (now : String) (orderList : List JSValue)
    (h : ¬ ∀ o ∈ orderList, notNullish o = true) :
    onMessage now (.obj [("orders", .arr orderList)])
      = [.log (.arr orderList), .exitA 1] := by
  simp [onMessage, getFieldE_batch, runMap, mapOrders_error now orderList h]

/-- C1: for every WorkBatch of size N ≥ 0 (a list of non-nullish order
objects), a successful dispatch produces exactly one reply carrying exactly
N result records, and the i-th record is derived from the i-th input item:
the worker's transformation is a stable, order-preserving map. -/
theorem dispatch_yields_ordered_records (now : String) (orders : List JSValue)
    (h : ∀ o ∈ orders, notNullish o = true) :
    ∃ records : List JSValue,
      sentMessages (processOrder now orders).workerTrace = [replyMessage records]
      ∧ records.length = orders.length
      ∧ ∀ i : Nat, records[i]? = (orders[i]?).map (resultRecord now) := by
  refine ⟨orders.map (resultRecord now), ?_, by simp, ?_⟩
  · show sentMessages (onMessage now (.obj [("orders", .arr orders)])) = _
    rw [onMessage_batch_ok now orders h]
    rfl
  · intro i
    simp [List.getElem?_map]

theorem dispatch_yields_ordered_records_witness :
    sentMessages (processOrder "T" demoOrders).workerTrace
      = [replyMessage (demoOrders.map (resultRecord "T"))]
    ∧ demoOrders.length = 3 := by
  obtain ⟨records, h1, h2, h3⟩ :=
    dispatch_yields_ordered_records "T" demoOrders (by decide)
  have hr : records = demoOrders.map (resultRecord "T") := by
    apply List.ext_getElem?
    intro i
    rw [h3 i, List.getElem?_map]
  exact ⟨hr ▸ h1, rfl⟩

/-- C2: if the worker throws while transforming the work items (the map
step raises), the worker process dies with nonzero status, passes nothing to
process.send, and the parent's message callback never fires: the whole
batch fails as a unit. -/
theorem worker_throw_all_or_nothing (now : String) (data ov : JSValue)
    (hov : getFieldE data "orders" = .ok ov)
    (hthrow : runMap now ov = .error .typeError) :
    onMessage now data = [.log ov, .exitA 1]
    ∧ sentMessages (onMessage now data) = []
    ∧ exitCodes (onMessage now data) = [1]
    ∧ dispatchEvents (onMessage now data) = [SupEvent.exitCallback 1] := by
  have htr : onMessage now data = [.log ov, .exitA 1] := by
    simp [onMessage, hov, hthrow]
  exact ⟨htr, by rw [htr]; rfl, by rw [htr]; rfl, by rw [htr]; rfl⟩

theorem worker_throw_all_or_nothing_witness :
    onMessage "T" (.obj [("orders", .str "x")]) = [.log (.str "x"), .exitA 1]
    ∧ sentMessages (onMessage "T" (.obj [("orders", .str "x")])) = []
    ∧ exitCodes (onMessage "T" (.obj [("orders", .str "x")])) = [1]
    ∧ dispatchEvents (onMessage "T" (.obj [("orders", .str "x")]))
        = [SupEvent.exitCallback 1] :=
  worker_throw_all_or_nothing "T" (.obj [("orders", .str "x")]) (.str "x") rfl rfl

/-- C3 fails on the code: the reply the worker sends for the demo batch has
no `kind` field at all, its status tag is "Completed" (not "completed"),
and it has no `items` field (the records are under `processedOrder`). -/
theorem reply_shape_counterexample :
    sentMessages (processOrder "T" demoOrders).workerTrace
      = [replyMessage (demoOrders.map (resultRecord "T"))]
    ∧ hasField (replyMessage (demoOrders.map (resultRecord "T"))) "kind" = false
    ∧ getField (replyMessage (demoOrders.map (resultRecord "T"))) "status"
        ≠ JSValue.str "completed"
    ∧ hasField (replyMessage (demoOrders.map (resultRecord "T"))) "items" = false := by
  refine ⟨rfl, rfl, ?_, rfl⟩
  have heq : getField (replyMessage (demoOrders.map (resultRecord "T"))) "status"
      = JSValue.str "Completed" := rfl
  rw [heq]
  intro hc
  exact absurd (JSValue.str.inj hc) (by decide)

/-- C3 amended: every message the worker ever passes to process.send is the
object `{status: "Completed", processedOrder: records}`: the status tag
"Completed" under the field `status`, the record list under the field
`processedOrder`, and neither a `kind` discriminator nor an `items` field. -/
theorem reply_shape (now : String) (data m : JSValue)
    (hm : WorkerAction.send m ∈ onMessage now data) :
    ∃ records : List JSValue,
      m = replyMessage records
      ∧ getField m "status" = JSValue.str "Completed"
      ∧ getField m "processedOrder" = JSValue.arr records
      ∧ hasField m "kind" = false
      ∧ hasField m "items" = false := by
  have hrec : ∃ records, m = replyMessage records := by
    unfold onMessage at hm
    split at hm
    · simp at hm
    · split at hm
      · simp at hm
      · rename_i recs _
        simp at hm
        exact ⟨recs, hm⟩
  rcases hrec with ⟨records, rfl⟩
  exact ⟨records, rfl, rfl, rfl, rfl, rfl⟩

theorem reply_shape_witness :
    getField (replyMessage (demoOrders.map (resultRecord "T"))) "status"
        = JSValue.str "Completed"
    ∧ hasField (replyMessage (demoOrders.map (resultRecord "T"))) "kind" = false
    ∧ hasField (replyMessage (demoOrders.map (resultRecord "T"))) "items" = false := by
  obtain ⟨records, hm, hstatus, hpo, hkind, hitems⟩ :=
    reply_shape "T" (.obj [("orders", .arr demoOrders)])
      (replyMessage (demoOrders.map (resultRecord "T")))
      (by rw [onMessage_batch_ok "T" demoOrders (by decide)]; simp)
  exact ⟨hstatus, hkind, hitems⟩

/-- C4: for every received WorkBatch the worker sends exactly one reply,
whatever follows a send is exactly the deliberate `process.exit()` with
status 0 (nothing comes after it, so the worker never waits for further
input after replying), and for any incoming message whatsoever the worker
never sends two messages. -/
theorem one_reply_then_terminate (now : String) (orders : List JSValue)
    (h : ∀ o ∈ orders, notNullish o = true) :
    (sentMessages (processOrder now orders).workerTrace).length = 1
    ∧ (∀ pre post : List WorkerAction, ∀ m : JSValue,
        (processOrder now orders).workerTrace
          = pre ++ WorkerAction.send m :: post → post = [WorkerAction.exitA 0])
    ∧ (∀ data : JSValue, (sentMessages (onMessage now data)).length ≤ 1) := by
  have htr : (processOrder now orders).workerTrace
      = [.log (.arr orders),
         .send (replyMessage (orders.map (resultRecord now))), .exitA 0] :=
    onMessage_batch_ok now orders h
  refine ⟨by rw [htr]; rfl, ?_, ?_⟩
  · intro pre post m hp
    rw [htr] at hp
    rcases pre with _ | ⟨a, _ | ⟨b, _ | ⟨c, rest⟩⟩⟩ <;> simp_all
  · intro data
    unfold onMessage
    split
    · exact Nat.zero_le 1
    · split
      · exact Nat.zero_le 1
      · exact Nat.le_refl 1

theorem one_reply_then_terminate_witness :
    (sentMessages (processOrder "T" demoOrders).workerTrace).length = 1 :=
  (one_reply_then_terminate "T" demoOrders (by decide)).1

/-- C5 fails on the code: dispatching the batch `[null]` makes the worker
throw before replying, and the parent's message callback — the only
callback that could deliver a result or failure value — never fires. The
only parent event is the exit callback logging code 1, so no WorkerFailure
value is delivered through any result channel. -/
theorem supervisor_callback_counterexample :
    (processOrder "T" [JSValue.null]).parentEvents = [SupEvent.exitCallback 1]
    ∧ sentMessages (processOrder "T" [JSValue.null]).workerTrace = [] :=
  ⟨rfl, rfl⟩

/-- C5 amended: the Supervisor itself never throws — both of its callbacks
only log. On a successful dispatch the message callback is invoked exactly
once with the reply message and then the exit callback with status 0; on a
worker failure the message callback is never invoked and the failure is
observable only through the exit callback's nonzero code — no WorkerFailure
value is delivered. -/
theorem supervisor_observes_outcome (now : String) (orders : List JSValue) :
    ((∀ o ∈ orders, notNullish o = true) →
      (processOrder now orders).parentEvents
        = [SupEvent.messageCallback (replyMessage (orders.map (resultRecord now))),
           SupEvent.exitCallback 0])
    ∧ ((¬ ∀ o ∈ orders, notNullish o = true) →
      (processOrder now orders).parentEvents = [SupEvent.exitCallback 1]) := by
  constructor
  · intro h
    show dispatchEvents (onMessage now (.obj [("orders", .arr orders)])) = _
    rw [onMessage_batch_ok now orders h]
    rfl
  · intro h
    show dispatchEvents (onMessage now (.obj [("orders", .arr orders)])) = _
    rw [onMessage_batch_err now orders h]
    rfl

theorem supervisor_observes_outcome_witness :
    (processOrder "T" demoOrders).parentEvents
      = [SupEvent.messageCallback (replyMessage (demoOrders.map (resultRecord "T"))),
         SupEvent.exitCallback 0] :=
  (supervisor_observes_outcome "T" demoOrders).1 (by decide)

/-- C6: a successful dispatch replies with one record per work item, and
the record built for an item carries the item's own orderId, the status tag
"processed", and the timestamp — while the item's customer and amount
fields are not propagated into it. -/
theorem record_fields (now : String) (orders : List JSValue)
    (h : ∀ o ∈ orders, notNullish o = true) :
    sentMessages (processOrder now orders).workerTrace
      = [replyMessage (orders.map (resultRecord now))]
    ∧ ∀ o ∈ orders,
        getField (resultRecord now o) "orderId" = getField o "orderId"
        ∧ getField (resultRecord now o) "status" = JSValue.str "processed"
        ∧ getField (resultRecord now o) "timestamp" = JSValue.str now
        ∧ hasField (resultRecord now o) "customer" = false
        ∧ hasField (resultRecord now o) "amount" = false := by
  constructor
  · show sentMessages (onMessage now (.obj [("orders", .arr orders)])) = _
    rw [onMessage_batch_ok now orders h]
    rfl
  · intro o _
    exact ⟨rfl, rfl, rfl, rfl, rfl⟩

theorem record_fields_witness :
    sentMessages (processOrder "T" demoOrders).workerTrace
      = [replyMessage (demoOrders.map (resultRecord "T"))]
    ∧ getField (resultRecord "T" (mkOrder 101 "Alice" 200)) "orderId"
        = getField (mkOrder 101 "Alice" 200) "orderId"
    ∧ hasField (resultRecord "T" (mkOrder 101 "Alice" 200)) "customer" = false := by
  have h := record_fields "T" demoOrders (by decide)
  have hmem : mkOrder 101 "Alice" 200 ∈ demoOrders := by
    simp [demoOrders]
  exact ⟨h.1, (h.2 _ hmem).1, (h.2 _ hmem).2.2.2.1⟩

/-- C7: re-dispatching the same batch at two different clock readings
yields replies whose record lists have the same length, pairwise the same
orderId and the same status tag, and become equal once the timestamp field
is removed: the worker is deterministic in everything but the clock. -/
theorem redispatch_differs_only_in_timestamp (t1 t2 : String)
    (orders : List JSValue) (h : ∀ o ∈ orders, notNullish o = true) :
    sentMessages (processOrder t1 orders).workerTrace
      = [replyMessage (orders.map (resultRecord t1))]
    ∧ sentMessages (processOrder t2 orders).workerTrace
      = [replyMessage (orders.map (resultRecord t2))]
    ∧ (orders.map (resultRecord t1)).length = (orders.map (resultRecord t2)).length
    ∧ (orders.map (resultRecord t1)).map (fun r => getField r "orderId")
      = (orders.map (resultRecord t2)).map (fun r => getField r "orderId")
    ∧ (orders.map (resultRecord t1)).map (fun r => getField r "status")
      = (orders.map (resultRecord t2)).map (fun r => getField r "status")
    ∧ (orders.map (resultRecord t1)).map (fun r => removeField r "timestamp")
      = (orders.map (resultRecord t2)).map (fun r => removeField r "timestamp") := by
  refine ⟨?_, ?_, by simp, ?_, ?_, ?_⟩
  · show sentMessages (onMessage t1 (.obj [("orders", .arr orders)])) = _
    rw [onMessage_batch_ok t1 orders h]; rfl
  · show sentMessages (onMessage t2 (.obj [("orders", .arr orders)])) = _
    rw [onMessage_batch_ok t2 orders h]; rfl
  · rw [List.map_map, List.map_map]; rfl
  · rw [List.map_map, List.map_map]; rfl
  · rw [List.map_map, List.map_map]; rfl

theorem redispatch_differs_only_in_timestamp_witness :
    sentMessages (processOrder "T1" demoOrders).workerTrace
      = [replyMessage (demoOrders.map (resultRecord "T1"))]
    ∧ sentMessages (processOrder "T2" demoOrders).workerTrace
      = [replyMessage (demoOrders.map (resultRecord "T2"))]
    ∧ (demoOrders.map (resultRecord "T1")).length
      = (demoOrders.map (resultRecord "T2")).length
    ∧ (demoOrders.map (resultRecord "T1")).map (fun r => getField r "orderId")
      = (demoOrders.map (resultRecord "T2")).map (fun r => getField r "orderId")
    ∧ (demoOrders.map (resultRecord "T1")).map (fun r => getField r "status")
      = (demoOrders.map (resultRecord "T2")).map (fun r => getField r "status")
    ∧ (demoOrders.map (resultRecord "T1")).map (fun r => removeField r "timestamp")
      = (demoOrders.map (resultRecord "T2")).map (fun r => removeField r "timestamp") :=
  redispatch_differs_only_in_timestamp "T1" "T2" demoOrders (by decide)

/-- C8: a handle's reply is a function of its own batch only: every record
in the reply for batch b1 is derived from an item of b1, and when the
orderIds of the two batches are disjoint, no record in b1's reply carries
the orderId of any item of the other batch b2. -/
theorem no_cross_batch_records (now : String) (b1 b2 : List JSValue)
    (h1 : ∀ o ∈ b1, notNullish o = true)
    (hdisj : ∀ o1 ∈ b1, ∀ o2 ∈ b2,
      getField o1 "orderId" ≠ getField o2 "orderId") :
    sentMessages (processOrder now b1).workerTrace
      = [replyMessage (b1.map (resultRecord now))]
    ∧ (∀ r ∈ b1.map (resultRecord now), ∃ o ∈ b1, r = resultRecord now o)
    ∧ (∀ r ∈ b1.map (resultRecord now), ∀ o2 ∈ b2,
        getField r "orderId" ≠ getField o2 "orderId") := by
  refine ⟨?_, ?_, ?_⟩
  · show sentMessages (onMessage now (.obj [("orders", .arr b1)])) = _
    rw [onMessage_batch_ok now b1 h1]; rfl
  · intro r hr
    rcases List.mem_map.mp hr with ⟨o, ho, rfl⟩
    exact ⟨o, ho, rfl⟩
  · intro r hr o2 ho2
    rcases List.mem_map.mp hr with ⟨o, ho, rfl⟩
    have hid : getField (resultRecord now o) "orderId" = getField o "orderId" := rfl
    rw [hid]
    exact hdisj o ho o2 ho2

theorem no_cross_batch_records_witness :
    sentMessages (processOrder "T" demoOrders).workerTrace
      = [replyMessage (demoOrders.map (resultRecord "T"))] := by
  have h := no_cross_batch_records "T" demoOrders [mkOrder 201 "Dana" 10]
    (by decide)
    (by
      intro o1 hmem1 o2 hmem2
      simp only [demoOrders, List.mem_cons, List.not_mem_nil, or_false] at hmem1 hmem2
      subst hmem2
      rcases hmem1 with rfl | rfl | rfl <;>
        exact fun hc => absurd (JSValue.num.inj hc) (by decide))
  exact h.1

/-- A WorkerHandle lifecycle state of the spec's data model. -/
inductive HandleState where
  | launched : HandleState
  | sent : HandleState
  | completed : HandleState
  | failed : HandleState
  | terminated : HandleState
deriving DecidableEq

/-- The handle's lifecycle read off the parent's wiring in
src/unnamed/part_006: the fork marks the handle Launched, `child.send`
marks it Sent, each received message marks it Completed, a nonzero exit
status marks it Failed, and the exit event marks it Terminated. -/
def handleStates (tr : List WorkerAction) : List HandleState :=
  [HandleState.launched, HandleState.sent]
    ++ (sentMessages tr).map (fun _ => HandleState.completed)
    ++ ((exitCodes tr).filterMap fun c =>
        if c = 0 then none else some HandleState.failed)
    ++ [HandleState.terminated]

/-- C9: each dispatch forks exactly one worker for its batch, and the
handle's lifecycle is Launched, Sent, then exactly one of Completed or
Failed, then Terminated — no state is ever revisited. -/
theorem handle_lifecycle (now : String) (orders : List JSValue) :
    (processOrder now orders).forkedWorkers = 1
    ∧ (handleStates (processOrder now orders).workerTrace
        = [HandleState.launched, HandleState.sent, HandleState.completed,
           HandleState.terminated]
      ∨ handleStates (processOrder now orders).workerTrace
        = [HandleState.launched, HandleState.sent, HandleState.failed,
           HandleState.terminated])
    ∧ (handleStates (processOrder now orders).workerTrace).Nodup := by
  by_cases h : ∀ o ∈ orders, notNullish o = true
  · have hst : handleStates (processOrder now orders).workerTrace
        = [HandleState.launched, HandleState.sent, HandleState.completed,
           HandleState.terminated] := by
      show handleStates (onMessage now (.obj [("orders", .arr orders)])) = _
      rw [onMessage_batch_ok now orders h]; rfl
    exact ⟨rfl, Or.inl hst, by rw [hst]; decide⟩
  · have hst : handleStates (processOrder now orders).workerTrace
        = [HandleState.launched, HandleState.sent, HandleState.failed,
           HandleState.terminated] := by
      show handleStates (onMessage now (.obj [("orders", .arr orders)])) = _
      rw [onMessage_batch_err now orders h]; rfl
    exact ⟨rfl, Or.inr hst, by rw [hst]; decide⟩

/-- C10: if the incoming message's `orders` field is missing or not an
array, the mapping step (or the field access itself) throws, so the worker
exits with status 1 and sends no reply; and the handler reaches
process.send only when `orders` is an array. -/
theorem orders_array_precondition (now : String) (data : JSValue) :
    (isArray (getField data "orders") = false →
      sentMessages (onMessage now data) = []
      ∧ exitCodes (onMessage now data) = [1])
    ∧ (sentMessages (onMessage now data) ≠ [] →
      isArray (getField data "orders") = true) := by
  cases hov : getFieldE data "orders" with
  | error e =>
      have htr : onMessage now data = [.exitA 1] := by simp [onMessage, hov]
      constructor
      · intro _
        rw [htr]
        exact ⟨rfl, rfl⟩
      · intro hs
        rw [htr] at hs
        exact absurd rfl hs
  | ok ov =>
      have hov' : ov = getField data "orders" := getFieldE_ok hov
      cases hov2 : isArray ov with
      | false =>
          have hrm : runMap now ov = .error .typeError := by
            cases ov <;> simp_all [isArray, runMap]
          have htr : onMessage now data = [.log ov, .exitA 1] := by
            simp [onMessage, hov, hrm]
          constructor
          · intro _
            rw [htr]
            exact ⟨rfl, rfl⟩
          · intro hs
            rw [htr] at hs
            exact absurd rfl hs
      | true =>
          constructor
          · intro hfalse
            rw [← hov'] at hfalse
            rw [hov2] at hfalse
            exact absurd hfalse (by simp)
          · intro _
            rw [← hov']
            exact hov2

theorem orders_array_precondition_witness :
    sentMessages (onMessage "T" (JSValue.obj [])) = []
    ∧ exitCodes (onMessage "T" (JSValue.obj [])) = [1] :=
  (orders_array_precondition "T" (JSValue.obj [])).1 rfl
